import Mathlib

/-!
Shallow embedding of the plugin discovery and loading subsystem of
`yt_dlp/plugins.py` (module `yt_dlp.plugins`).

Modelling conventions:
* A filesystem path (`pathlib.Path`) is a list of path components (`FPath`).
* The filesystem and process environment are explicit records (`FS`, `Env`)
  of pure query functions; the Python code only reads them.
* Python `dict`s are association lists in insertion order; `alookup` is
  `dict.__getitem__` / `in`, `dictUpdate` is `dict.update`.
* Exceptions are explicit: functions that can raise return `Except`, and the
  per-archive read in `zip_has_dir` additionally reports how many underlying
  `ZipFile(...)` opens it performed.
* String helpers (`dotSplit`, `strStartsWith`, `strEndsWith`) are structural
  re-implementations of `str.split('.')`, `str.startswith`, `str.endswith`,
  so that concrete instances evaluate inside the kernel.
-/

namespace YtDlpPlugins

/-- A filesystem path, as its list of components (the model of `pathlib.Path`). -/
abbrev FPath := List String

/-- The Python exceptions relevant to this subsystem. -/
inductive PyError where
  | fileNotFound
  | other (msg : String)
deriving DecidableEq

/-- Association-list lookup: `d[k]` / `k in d` on a Python dict in insertion order. -/
def alookup {κ α : Type} [DecidableEq κ] (k : κ) : List (κ × α) → Option α
  | [] => none
  | (k', v) :: rest => if k' = k then some v else alookup k rest

/-- Python `d.update(u)`: keys already in `d` keep their position and take the
value from `u`; new keys of `u` are appended in `u`'s order. -/
def dictUpdate {κ α : Type} [DecidableEq κ] (d u : List (κ × α)) : List (κ × α) :=
  d.map (fun kv => match alookup kv.1 u with
    | some v => (kv.1, v)
    | none => kv)
  ++ u.filter (fun kv => (alookup kv.1 d).isNone)

/-! ### String helpers (structural models of the Python `str` operations used) -/

/-- Split a character list at `'.'` (model of `str.split('.')`). -/
def splitOnDot : List Char → List (List Char)
  | [] => [[]]
  | ch :: rest =>
    let r := splitOnDot rest
    if ch = '.' then [] :: r
    else match r with
      | [] => [[ch]]
      | g :: gs => (ch :: g) :: gs

/-- `s.split('.')` on a Python `str`. -/
def dotSplit (s : String) : List String :=
  (splitOnDot s.data).map String.mk

/-- `s.startswith(pre)`. -/
def strStartsWith (s pre : String) : Bool :=
  pre.data.isPrefixOf s.data

/-- `s.endswith(suf)`. -/
def strEndsWith (s suf : String) : Bool :=
  suf.data.isSuffixOf s.data

/-! ### Path helpers (the `pathlib.Path` operations used by the source) -/

/-- `Path.name`: the final path component, `''` when there is none. -/
def pathName (p : FPath) : String := p.getLast?.getD ""

/-- `Path.stem` of a single name: the name without its final extension; a name
with no dot, or only a leading dot, has no extension. -/
def nameStem (s : String) : String :=
  match dotSplit s with
  | [] => s
  | [_] => s
  | p :: rest =>
    if p = "" ∧ rest.length = 1 then s
    else String.intercalate "." ((p :: rest).dropLast)

/-- `Path.with_suffix(suffix)`: replace the final component's extension. -/
def withSuffix (p : FPath) (suffix : String) : FPath :=
  match p.getLast? with
  | none => p
  | some last => p.dropLast ++ [nameStem last ++ suffix]

/-- `path in file.parents`: `path` is a proper ancestor directory of `file`,
i.e. a proper prefix of its component list. -/
def inParents (path file : FPath) : Bool :=
  path.isPrefixOf file && path != file

/-! ### `PluginLoader` (plugins.py lines 32-36) -/

/-- Dummy loader for virtual namespace packages. -/
structure PluginLoader

/-- `PluginLoader.exec_module` returns `None` and leaves the module untouched:
executing a virtual namespace package is a no-op. -/
def PluginLoader.exec_module (_ : PluginLoader) {α : Type} (module : α) : α :=
  module

/-! ### The filesystem / environment the finder reads -/

/-- What opening an archive and listing its names can yield:
the entry list, or an exception from `ZipFile(archive)`. -/
inductive ZipOpen where
  | entries (l : List FPath)
  | raised (e : PyError)
deriving DecidableEq

/-- Pure model of the filesystem queries `plugins.py` performs. -/
structure FS where
  isDir : FPath → Bool
  isFile : FPath → Bool
  iterdir : FPath → List FPath
  zipNamelist : FPath → ZipOpen

/-- Model of the configuration/environment state `search_locations` reads:
`get_user_config_dirs`, `get_system_config_dirs`, `get_executable_path`,
`compat_expanduser('~')`, `os.getenv('XDG_CONFIG_HOME')`,
`compat_expanduser('~/.config')` and `sys.path`. -/
structure Env where
  userConfigDirs : List FPath
  systemConfigDirs : List FPath
  executablePath : FPath
  homeDir : FPath
  xdgConfigHome : Option FPath
  configHomeDefault : FPath
  sysPath : List FPath

/-! ### `PluginFinder` (plugins.py lines 39-116) -/

/-- The `_zip_content_cache` attribute: archive path to its cached entry list. -/
abbrev ZipCache := List (FPath × List FPath)

/-- Outcome of `zip_has_dir`: an answer, or the exception it raised. -/
inductive ZipAns where
  | ok (b : Bool)
  | err (e : PyError)
deriving DecidableEq

/-- `any(path in file.parents for file in entries)`. -/
def zipHasDirEntries (path : FPath) (entries : List FPath) : Bool :=
  entries.any (fun file => inParents path file)

/-- `PluginFinder.zip_has_dir` with the cache state passed explicitly.
The `Nat` counts the underlying `ZipFile(archive).namelist()` reads performed
(0 on a cache hit, 1 otherwise). On a raising read the cache is returned
unchanged: the assignment into `_zip_content_cache` never executed. -/
def zip_has_dir (fs : FS) (cache : ZipCache) (archive path : FPath) :
    ZipCache × ZipAns × Nat :=
  match alookup archive cache with
  | some entries => (cache, .ok (zipHasDirEntries path entries), 0)
  | none =>
    match fs.zipNamelist archive with
    | .raised e => (cache, .err e, 1)
    | .entries l => (cache ++ [(archive, l)], .ok (zipHasDirEntries path l), 1)

/-- The local `_get_package_paths` of `search_locations` (lines 65-70):
for each root, when `root/containingFolder` is a directory, yield its
directory entries; roots whose plugin folder does not exist contribute
nothing. -/
def _get_package_paths (fs : FS) (rootPaths : List FPath) (containingFolder : String) :
    List FPath :=
  rootPaths.flatMap (fun configDir =>
    let pluginDir := configDir ++ [containingFolder]
    if fs.isDir pluginDir then fs.iterdir pluginDir else [])

/-- The `candidate_locations` list built by `search_locations` (lines 72-86):
config-folder plugin dirs, legacy `yt-dlp-plugins` dirs, then `sys.path`. -/
def candidate_locations (env : Env) (fs : FS) : List FPath :=
  _get_package_paths fs (env.userConfigDirs ++ env.systemConfigDirs) "plugins"
  ++ _get_package_paths fs
      [env.executablePath, env.homeDir, ["/etc"],
       env.xdgConfigHome.getD env.configHomeDefault] "yt-dlp-plugins"
  ++ env.sysPath

/-- `dict.fromkeys(candidate_locations)`: de-duplicate, keeping first occurrences. -/
def dedupKeepFirst (l : List FPath) : List FPath := go [] l
  where go (seen : List FPath) : List FPath → List FPath
    | [] => []
    | x :: xs => if seen.contains x then go seen xs else x :: go (x :: seen) xs

/-- The set literal `{'.zip', '.egg', '.whl'}`. -/
def archiveSuffixes : List String := [".zip", ".egg", ".whl"]

/-- The per-candidate loop body of `search_locations` (lines 90-97), with the
zip cache threaded through. `contextlib.suppress(FileNotFoundError)` makes a
`FileNotFoundError` from `zip_has_dir` skip the candidate; any other
exception propagates. -/
def searchLoop (fs : FS) (parts : FPath) :
    List FPath → ZipCache → List FPath → Except PyError (ZipCache × List FPath)
  | [], cache, locations => .ok (cache, locations)
  | path :: rest, cache, locations =>
    let candidate := path ++ parts
    if fs.isDir candidate then
      searchLoop fs parts rest cache (locations ++ [candidate])
    else if (pathName path != "")
        && archiveSuffixes.any (fun suffix => fs.isFile (withSuffix path suffix)) then
      match zip_has_dir fs cache path parts with
      | (cache', .ok true, _) => searchLoop fs parts rest cache' (locations ++ [candidate])
      | (cache', .ok false, _) => searchLoop fs parts rest cache' locations
      | (cache', .err .fileNotFound, _) => searchLoop fs parts rest cache' locations
      | (_, .err (.other e), _) => .error (.other e)
    else
      searchLoop fs parts rest cache locations

/-- `PluginFinder.search_locations` (lines 62-98). -/
def search_locations (env : Env) (fs : FS) (cache : ZipCache) (fullname : String) :
    Except PyError (ZipCache × List FPath) :=
  searchLoop fs (dotSplit fullname) (dedupKeepFirst (candidate_locations env fs)) cache []

/-- `PluginFinder.partition` (lines 53-55): the accumulated dotted prefixes
of a dotted name. -/
def partition (name : String) : List String :=
  match dotSplit name with
  | [] => []
  | p :: ps =>
    let step := fun (acc : List String × String) (b : String) =>
      let nxt := acc.2 ++ "." ++ b
      (acc.1 ++ [nxt], nxt)
    (ps.foldl step ([p], p)).1

/-- The `PluginFinder` instance state: the watched package-name set and the
zip content cache. -/
structure PluginFinder where
  packages : List String
  zip_content_cache : ZipCache
deriving DecidableEq

/-- `PluginFinder.__init__(*names)` (lines 46-51). -/
def PluginFinder.init (names : List String) : PluginFinder :=
  { packages := names.foldl
      (fun acc n => (partition n).foldl
        (fun a q => if a.contains q then a else a ++ [q]) acc) []
    zip_content_cache := [] }

/-- `importlib.machinery.ModuleSpec` as `find_spec` builds it. -/
structure ModuleSpec where
  name : String
  loader : PluginLoader
  is_package : Bool
  submodule_search_locations : List FPath

/-- `PluginFinder.find_spec` (lines 100-110), with the mutated cache state in
the result. -/
def find_spec (env : Env) (fs : FS) (f : PluginFinder) (fullname : String) :
    Except PyError (PluginFinder × Option ModuleSpec) :=
  if f.packages.contains fullname then
    match search_locations env fs f.zip_content_cache fullname with
    | .error e => .error e
    | .ok (cache', locs) =>
      if locs.isEmpty then .ok ({ f with zip_content_cache := cache' }, none)
      else .ok ({ f with zip_content_cache := cache' },
                some { name := fullname, loader := {}, is_package := true,
                       submodule_search_locations := locs })
  else .ok (f, none)

/-- `PluginFinder.invalidate_caches` (lines 112-116): clear the zip cache and
drop every watched package from `sys.modules` (modelled as the list of
currently cached module names). -/
def PluginFinder.invalidate_caches (f : PluginFinder) (sysModules : List String) :
    PluginFinder × List String :=
  ({ f with zip_content_cache := [] },
   sysModules.filter (fun m => !(f.packages.contains m)))

/-! ### Module-level constants and `initialize()` (lines 26-29, 119-126) -/

def PACKAGE_NAME : String := "yt_dlp_plugins"

def COMPAT_PACKAGE_NAME : String := "ytdlp_plugins"

/-- An entry of `sys.meta_path`: the plugin finder, or one of the host
interpreter's own finders. -/
inductive MetaPathEntry where
  | plugin (f : PluginFinder)
  | host (tag : String)
deriving DecidableEq

/-- The process-wide state `initialize()` touches: `sys.meta_path` and the
module-global `_INITIALIZED` flag. -/
structure SysState where
  meta_path : List MetaPathEntry
  initialized : Bool
deriving DecidableEq

/-- The finder `initialize()` installs:
`PluginFinder(f'{PACKAGE_NAME}.extractor', f'{PACKAGE_NAME}.postprocessor')`. -/
def defaultFinder : PluginFinder :=
  PluginFinder.init [PACKAGE_NAME ++ ".extractor", PACKAGE_NAME ++ ".postprocessor"]

/-- `initialize()` (lines 119-126), the source's `initialize`, as a transformer
of the process state: insert the finder at the head of `sys.meta_path` unless
`_INITIALIZED` is already set. -/
def initPlugins (s : SysState) : SysState :=
  if s.initialized then s
  else { meta_path := .plugin defaultFinder :: s.meta_path, initialized := true }

/-- Whether a `sys.meta_path` entry is the plugin finder. -/
def isPluginEntry : MetaPathEntry → Bool
  | .plugin _ => true
  | .host _ => false

/-! ### `load_plugins` (lines 141-193) -/

/-- A top-level symbol of an executed module, with the attributes
`check_predicate` inspects: `__name__`, `inspect.isclass`, `__module__`. -/
structure Member where
  name : String
  isClass : Bool
  definedIn : String
deriving DecidableEq

/-- An executed Python module as `load_module` sees it: its top-level members
(in `inspect.getmembers` order, whose names `dir()` keeps unique) and its
`__all__` attribute when declared. -/
structure PyModule where
  members : List Member
  exportAll : Option (List String)
deriving DecidableEq

/-- A class registry / namespace: a Python dict from class name to class. -/
abbrev Registry := List (String × Member)

/-- The predicate built by `gen_predicate(package_name, module)`
(lines 145-153). `moduleName` is the `package_name` argument: the fully
qualified name of the module being inspected. -/
def check_predicate (suffix moduleName : String) (module : PyModule) (obj : Member) : Bool :=
  obj.isClass
  && strEndsWith obj.name suffix
  && strStartsWith obj.definedIn moduleName
  && !(strStartsWith obj.name "_")
  && (match module.exportAll with
      | some names => names.contains obj.name
      | none => true)

/-- `dict(inspect.getmembers(module, pred))`: the members satisfying the
predicate, keyed by name. -/
def getmembers (module : PyModule) (pred : Member → Bool) : Registry :=
  (module.members.filter pred).map (fun m => (m.name, m))

/-- The candidate classes a module contributes:
`dict(inspect.getmembers(module, gen_predicate(module_name, module)))`. -/
def moduleCandidates (suffix moduleName : String) (pm : PyModule) : Registry :=
  getmembers pm (check_predicate suffix moduleName pm)

/-- `load_module(module, module_name)` (lines 155-160): drop every candidate
whose name is already in `classes` or in the caller-supplied namespace `ns`,
and append the survivors. -/
def load_module (suffix : String) (classes ns : Registry) (module : PyModule)
    (moduleName : String) : Registry :=
  classes ++ (moduleCandidates suffix moduleName module).filter
      (fun kv => (alookup kv.1 classes).isNone && (alookup kv.1 ns).isNone)

/-- `c.isAlphanum || c = '_'`: the ASCII reading of the regex class `\w`. -/
def isWordChar (c : Char) : Bool := c.isAlphanum || c = '_'

/-- `re.match(r'^(\w+\.)*_', module_name)` (line 163): some dotted segment
starts with an underscore, with every earlier segment made of word
characters. -/
def skipModuleName (name : String) : Bool := go (dotSplit name)
  where go : List String → Bool
    | [] => false
    | seg :: rest =>
      strStartsWith seg "_" || (!seg.isEmpty && seg.data.all isWordChar && go rest)

deriving instance DecidableEq for Except

/-- One entry yielded by `iter_modules(name)`: the submodule's full dotted
name, and the outcome of executing it (`spec.loader.exec_module` /
`zipimporter.load_module`): the module object, or the exception raised. -/
structure ModuleInfo where
  name : String
  exec : Except String PyModule
deriving DecidableEq

/-- The diagnostic `write_string(f'Error while importing module {name!r}...')`
emits for a failing module; it carries a truncated traceback in the source,
modelled here by the module name alone. -/
def loadErrorMessage (moduleName : String) : String :=
  "Error while importing module " ++ moduleName

/-- The main scan of `load_plugins` (lines 162-179): skip underscore-prefixed
submodules, catch any exception from executing a module (emitting a
diagnostic and continuing), and hand each executed module to `load_module`. -/
def scanModules (suffix : String) (ns : Registry) :
    List ModuleInfo → Registry → List String → Registry × List String
  | [], classes, diags => (classes, diags)
  | m :: rest, classes, diags =>
    if skipModuleName m.name then scanModules suffix ns rest classes diags
    else match m.exec with
      | .error _ => scanModules suffix ns rest classes (diags ++ [loadErrorMessage m.name])
      | .ok pm => scanModules suffix ns rest (load_module suffix classes ns pm m.name) diags

/-- Outcome of the legacy compat bridge (lines 184-190): the
`ytdlp_plugins/<name>/__init__.py` file is missing (the `FileNotFoundError`
that `contextlib.suppress` swallows), or executing it raised some other
exception, or it executed to a module. -/
inductive CompatExec where
  | missing
  | raising (e : String)
  | loaded (pm : PyModule)
deriving DecidableEq

/-- `load_plugins(name, suffix, namespace)` (lines 141-193). The result is
`(returned classes, namespace after the in-place update, diagnostics)`, or
the exception that escaped. Two escape routes exist, both modelled:
* the `for`-loop header (line 162) lies outside the `try` of lines 165-178,
  so when the submodule enumeration itself raises after yielding `mods`
  (e.g. a corrupt or unreadable archive surfacing from the path finder
  during iteration — `iter_modules` suppresses only `ModuleNotFoundError`),
  that exception (`enumRaised`) propagates and the scanned classes are
  discarded;
* only `FileNotFoundError` is suppressed around the compat bridge, so any
  other exception its execution raises propagates before
  `namespace.update(classes)` runs. -/
def load_plugins (name suffix : String) (mods : List ModuleInfo) (enumRaised : Option String)
    (compat : CompatExec) (ns : Registry) :
    Except String (Registry × Registry × List String) :=
  let scanned := scanModules suffix ns mods [] []
  match enumRaised with
  | some e => .error e
  | none =>
    match compat with
    | .raising e => .error e
    | .missing => .ok (scanned.1, dictUpdate ns scanned.1, scanned.2)
    | .loaded pm =>
      let classes' := load_module suffix scanned.1 ns pm name
      .ok (classes', dictUpdate ns classes', scanned.2)

/-- The candidates of the main scan, in scan order. -/
def mainCandidates (suffix : String) (mods : List ModuleInfo) : Registry :=
  mods.flatMap (fun m =>
    if skipModuleName m.name then []
    else match m.exec with
      | .error _ => []
      | .ok pm => moduleCandidates suffix m.name pm)

/-- Every candidate a `load_plugins` call sees, in registration order:
main-scan candidates, then the compat module's candidates (for which
`gen_predicate` receives `spec.name = name`). -/
def allCandidates (name suffix : String) (mods : List ModuleInfo) (compat : CompatExec) :
    Registry :=
  mainCandidates suffix mods ++
    (match compat with
     | .loaded pm => moduleCandidates suffix name pm
     | _ => [])

/-- Modelled from the spec: claim C3's condition (d) reads "defined in a
module whose qualified name is a descendant of the plugin category's own
package path". This is the spec's selection predicate, identical to
`check_predicate` except that the `__module__` test is against the category
package path rather than the inspected module's own name. -/
def spec_collect_condition (suffix categoryPackage : String) (module : PyModule)
    (obj : Member) : Bool :=
  obj.isClass
  && strEndsWith obj.name suffix
  && strStartsWith obj.definedIn categoryPackage
  && !(strStartsWith obj.name "_")
  && (match module.exportAll with
      | some names => names.contains obj.name
      | none => true)

/-! ## Helper lemmas about association lists -/

theorem alookup_append {κ α : Type} [DecidableEq κ] (k : κ) (l₁ l₂ : List (κ × α)) :
    alookup k (l₁ ++ l₂) =
      match alookup k l₁ with
      | some v => some v
      | none => alookup k l₂ := by
  induction l₁ with
  | nil => simp [alookup]
  | cons kv rest ih =>
    obtain ⟨k', v⟩ := kv
    by_cases h : k' = k
    · simp [alookup, h]
    · simp [alookup, h, ih]

theorem mem_of_alookup_eq_some {κ α : Type} [DecidableEq κ] {k : κ} {v : α} :
    ∀ {l : List (κ × α)}, alookup k l = some v → (k, v) ∈ l := by
  intro l
  induction l with
  | nil => intro h; simp [alookup] at h
  | cons kv rest ih =>
    intro h
    obtain ⟨k', w⟩ := kv
    by_cases hk : k' = k
    · subst hk
      simp [alookup] at h
      subst h
      exact List.mem_cons_self _ _
    · simp [alookup, hk] at h
      exact List.mem_cons_of_mem _ (ih h)

theorem alookup_isSome_of_mem {κ α : Type} [DecidableEq κ] {kv : κ × α} :
    ∀ {l : List (κ × α)}, kv ∈ l → (alookup kv.1 l).isSome = true := by
  intro l
  induction l with
  | nil => intro h; simp at h
  | cons kv' rest ih =>
    intro h
    obtain ⟨k', w⟩ := kv'
    by_cases hk : k' = kv.1
    · simp [alookup, hk]
    · rcases List.mem_cons.mp h with h1 | h1
      · exfalso; apply hk; rw [h1]
      · simp only [alookup, if_neg hk]
        exact ih h1

theorem disjoint_keys_of_lookup {κ α : Type} [DecidableEq κ] {c ns : List (κ × α)}
    (hdisj : ∀ k, (alookup k ns).isSome = true → alookup k c = none) :
    ∀ kv ∈ c, alookup kv.1 ns = none := by
  intro kv hmem
  cases hn : alookup kv.1 ns with
  | none => rfl
  | some w =>
    exfalso
    have hc := hdisj kv.1 (by rw [hn]; rfl)
    have hs := alookup_isSome_of_mem hmem
    rw [hc] at hs
    simp at hs

theorem dictUpdate_disjoint {κ α : Type} [DecidableEq κ] (d u : List (κ × α))
    (h : ∀ kv ∈ u, alookup kv.1 d = none) : dictUpdate d u = d ++ u := by
  unfold dictUpdate
  have hmap : ∀ kv ∈ d,
      (match alookup kv.1 u with
       | some v => (kv.1, v)
       | none => kv) = kv := by
    intro kv hkv
    cases hu : alookup kv.1 u with
    | none => rfl
    | some w =>
      exfalso
      have hmem := mem_of_alookup_eq_some hu
      have hnone := h (kv.1, w) hmem
      have hs := alookup_isSome_of_mem hkv
      rw [hnone] at hs
      simp at hs
  have hfil : u.filter (fun kv => (alookup kv.1 d).isNone) = u := by
    rw [List.filter_eq_self]
    intro kv hkv
    rw [h kv hkv]
    rfl
  rw [hfil]
  congr 1
  calc d.map (fun kv => match alookup kv.1 u with
        | some v => (kv.1, v)
        | none => kv)
      = d.map id := List.map_congr_left hmap
    _ = d := List.map_id d

/-! ## Helper lemmas about the collection pipeline -/

theorem alookup_filter_surv (c ns : Registry) (k : String) :
    ∀ l : Registry,
      alookup k (l.filter (fun kv => (alookup kv.1 c).isNone && (alookup kv.1 ns).isNone)) =
        if ((alookup k c).isNone && (alookup k ns).isNone) = true then alookup k l
        else none := by
  intro l
  induction l with
  | nil =>
    by_cases h : ((alookup k c).isNone && (alookup k ns).isNone) = true <;>
      simp [alookup, h]
  | cons kv rest ih =>
    obtain ⟨k', v⟩ := kv
    by_cases hq : ((alookup k' c).isNone && (alookup k' ns).isNone) = true
    · by_cases hk : k' = k
      · subst hk
        simp [List.filter_cons, hq, alookup, ih]
      · simp [List.filter_cons, hq, alookup, hk, ih]
    · by_cases hk : k' = k
      · subst hk
        simp [List.filter_cons, hq, alookup, ih]
      · simp [List.filter_cons, hq, alookup, hk, ih]

theorem alookup_load_module (suffix : String) (c ns : Registry) (pm : PyModule)
    (mn : String) (k : String) :
    alookup k (load_module suffix c ns pm mn) =
      match alookup k c with
      | some v => some v
      | none =>
        if alookup k ns = none then alookup k (moduleCandidates suffix mn pm)
        else none := by
  unfold load_module
  rw [alookup_append, alookup_filter_surv]
  cases hc : alookup k c with
  | some v => simp
  | none =>
    cases hns : alookup k ns with
    | some w => simp [hc, hns]
    | none => simp [hc, hns]

theorem scan_alookup_ns_none (suffix : String) (ns : Registry) (k : String)
    (hns : alookup k ns = none) :
    ∀ (mods : List ModuleInfo) (c : Registry) (d : List String),
      alookup k (scanModules suffix ns mods c d).1 =
        match alookup k c with
        | some v => some v
        | none => alookup k (mainCandidates suffix mods) := by
  intro mods
  induction mods with
  | nil =>
    intro c d
    simp only [scanModules, mainCandidates, List.flatMap_nil]
    cases alookup k c <;> simp [alookup]
  | cons m rest ih =>
    intro c d
    by_cases hskip : skipModuleName m.name
    · simp only [scanModules, if_pos hskip]
      rw [ih]
      simp [mainCandidates, List.flatMap_cons, hskip]
    · cases hex : m.exec with
      | error e =>
        simp only [scanModules, if_neg hskip, hex]
        rw [ih]
        simp [mainCandidates, List.flatMap_cons, hskip, hex]
      | ok pm =>
        simp only [scanModules, if_neg hskip, hex]
        rw [ih, alookup_load_module]
        simp only [mainCandidates, List.flatMap_cons, if_neg hskip, hex, alookup_append,
          hns, if_pos]
        cases alookup k c <;>
          cases alookup k (moduleCandidates suffix m.name pm) <;> simp [mainCandidates]

theorem scan_alookup_ns_some (suffix : String) (ns : Registry) (k : String)
    (hns : (alookup k ns).isSome = true) :
    ∀ (mods : List ModuleInfo) (c : Registry) (d : List String),
      alookup k (scanModules suffix ns mods c d).1 = alookup k c := by
  intro mods
  have hne : ¬(alookup k ns = none) := by
    intro h
    rw [h] at hns
    simp at hns
  induction mods with
  | nil => intro c d; rfl
  | cons m rest ih =>
    intro c d
    by_cases hskip : skipModuleName m.name
    · simp only [scanModules, if_pos hskip]
      exact ih c d
    · cases hex : m.exec with
      | error e =>
        simp only [scanModules, if_neg hskip, hex]
        exact ih c _
      | ok pm =>
        simp only [scanModules, if_neg hskip, hex]
        rw [ih, alookup_load_module]
        simp only [if_neg hne]
        cases alookup k c <;> simp

theorem load_plugins_ok_inv (name suffix : String) (mods : List ModuleInfo)
    (enumRaised : Option String) (compat : CompatExec) (ns c ns' : Registry)
    (d : List String)
    (h : load_plugins name suffix mods enumRaised compat ns = .ok (c, ns', d)) :
    (∀ k, (alookup k ns).isSome = true → alookup k c = none) ∧
    ns' = dictUpdate ns c ∧
    (∀ k, alookup k ns = none →
      alookup k c = alookup k (allCandidates name suffix mods compat)) := by
  cases enumRaised with
  | some e => simp [load_plugins] at h
  | none =>
    cases compat with
    | raising e => simp [load_plugins] at h
    | missing =>
      simp only [load_plugins, Except.ok.injEq, Prod.mk.injEq] at h
      obtain ⟨hc, hns', hd⟩ := h
      subst hc
      refine ⟨?_, hns'.symm, ?_⟩
      · intro k hk
        rw [scan_alookup_ns_some suffix ns k hk]
        rfl
      · intro k hk
        rw [scan_alookup_ns_none suffix ns k hk]
        simp [allCandidates, alookup]
    | loaded pm =>
      simp only [load_plugins, Except.ok.injEq, Prod.mk.injEq] at h
      obtain ⟨hc, hns', hd⟩ := h
      subst hc
      refine ⟨?_, hns'.symm, ?_⟩
      · intro k hk
        have hne : ¬(alookup k ns = none) := by
          intro hn
          rw [hn] at hk
          simp at hk
        rw [alookup_load_module]
        rw [scan_alookup_ns_some suffix ns k hk]
        simp [alookup, if_neg hne]
      · intro k hk
        rw [alookup_load_module]
        rw [scan_alookup_ns_none suffix ns k hk]
        simp only [allCandidates, alookup_append, alookup, hk, if_pos]
        cases alookup k (mainCandidates suffix mods) <;> simp

/-! ## Helper lemmas for class selection (claim C3) -/

theorem alookup_getmembers_eq_some {p : Member → Bool} {k : String} {v : Member} :
    ∀ {l : List Member},
      alookup k ((l.filter p).map (fun m => (m.name, m))) = some v →
      v ∈ l ∧ v.name = k ∧ p v = true := by
  intro l
  induction l with
  | nil => intro h; simp [alookup] at h
  | cons a rest ih =>
    intro h
    by_cases hp : p a
    · rw [List.filter_cons, if_pos hp, List.map_cons] at h
      by_cases hk : a.name = k
      · rw [show alookup k ((a.name, a) :: (rest.filter p).map (fun m => (m.name, m))) =
            some a from by simp [alookup, hk]] at h
        obtain rfl := Option.some.inj h
        exact ⟨List.mem_cons_self a rest, hk, hp⟩
      · rw [show alookup k ((a.name, a) :: (rest.filter p).map (fun m => (m.name, m))) =
            alookup k ((rest.filter p).map (fun m => (m.name, m))) from by
              simp [alookup, hk]] at h
        obtain ⟨h1, h2, h3⟩ := ih h
        exact ⟨List.mem_cons_of_mem a h1, h2, h3⟩
    · rw [List.filter_cons, if_neg hp] at h
      obtain ⟨h1, h2, h3⟩ := ih h
      exact ⟨List.mem_cons_of_mem a h1, h2, h3⟩

theorem nodup_name_inj :
    ∀ {l : List Member}, (l.map Member.name).Nodup →
      ∀ {m m' : Member}, m ∈ l → m' ∈ l → m'.name = m.name → m' = m := by
  intro l
  induction l with
  | nil => intro _ m m' hm; simp at hm
  | cons a rest ih =>
    intro hn m m' hm hm' hname
    rw [List.map_cons, List.nodup_cons] at hn
    obtain ⟨hna, hnr⟩ := hn
    rcases List.mem_cons.mp hm with rfl | hm1
    · rcases List.mem_cons.mp hm' with rfl | hm'1
      · rfl
      · exfalso
        apply hna
        rw [← hname]
        exact List.mem_map.mpr ⟨m', hm'1, rfl⟩
    · rcases List.mem_cons.mp hm' with rfl | hm'1
      · exfalso
        apply hna
        rw [hname]
        exact List.mem_map.mpr ⟨m, hm1, rfl⟩
      · exact ih hnr hm1 hm'1 hname

theorem alookup_getmembers_of_mem {p : Member → Bool} :
    ∀ {l : List Member} {m : Member}, m ∈ l → p m = true →
      (∀ m' ∈ l, m'.name = m.name → m' = m) →
      alookup m.name ((l.filter p).map (fun m => (m.name, m))) = some m := by
  intro l
  induction l with
  | nil => intro m hm; simp at hm
  | cons a rest ih =>
    intro m hm hp hinj
    by_cases hpa : p a
    · rw [List.filter_cons, if_pos hpa, List.map_cons]
      by_cases hk : a.name = m.name
      · have ham : a = m := hinj a (List.mem_cons_self a rest) hk
        subst ham
        simp [alookup]
      · rw [show alookup m.name ((a.name, a) :: (rest.filter p).map (fun m => (m.name, m))) =
            alookup m.name ((rest.filter p).map (fun m => (m.name, m))) from by
              simp [alookup, hk]]
        rcases List.mem_cons.mp hm with rfl | hm1
        · exact absurd rfl hk
        · exact ih hm1 hp (fun m' hm' => hinj m' (List.mem_cons_of_mem a hm'))
    · rw [List.filter_cons, if_neg hpa]
      rcases List.mem_cons.mp hm with rfl | hm1
      · exact absurd hp hpa
      · exact ih hm1 hp (fun m' hm' => hinj m' (List.mem_cons_of_mem a hm'))

/-! ## Concrete fixtures shared by witnesses and counterexamples -/

def memFooA : Member := ⟨"FooIE", true, "yt_dlp_plugins.extractor.a"⟩

def memFooB : Member := ⟨"FooIE", true, "yt_dlp_plugins.extractor.b"⟩

def memBuiltinFoo : Member := ⟨"FooIE", true, "yt_dlp.extractor.foo"⟩

def memBaz : Member := ⟨"BazIE", true, "yt_dlp.extractor.baz"⟩

def memBar : Member := ⟨"BarIE", true, "yt_dlp_plugins.extractor.bar"⟩

def memBarOther : Member := ⟨"BarIE", true, "yt_dlp_plugins.extractor.other"⟩

def pmA : PyModule := ⟨[memFooA], none⟩

def pmB : PyModule := ⟨[memFooB], none⟩

def pmBar : PyModule := ⟨[memBar], none⟩

def pmOther : PyModule := ⟨[memBarOther], none⟩

def modA : ModuleInfo := ⟨"yt_dlp_plugins.extractor.a", .ok pmA⟩

def modB : ModuleInfo := ⟨"yt_dlp_plugins.extractor.b", .ok pmB⟩

def modBar : ModuleInfo := ⟨"yt_dlp_plugins.extractor.bar", .ok pmBar⟩

def modBad : ModuleInfo := ⟨"yt_dlp_plugins.extractor.bad", .error "boom"⟩

/-- An archive on `sys.path` laid out as the spec's scenario describes:
entries starting at `extractor/`, with no `yt_dlp_plugins/` prefix. -/
def fsZipBad : FS :=
  ⟨fun _ => false, fun p => p == ["myplugins.zip"], fun _ => [],
   fun p => if p = ["myplugins.zip"] then .entries [["extractor", "bar.py"]]
            else .raised .fileNotFound⟩

/-- The same archive with its entries under `yt_dlp_plugins/`. -/
def fsZipGood : FS :=
  { fsZipBad with
    zipNamelist := fun p =>
      if p = ["myplugins.zip"] then .entries [["yt_dlp_plugins", "extractor", "bar.py"]]
      else .raised .fileNotFound }

def envZip : Env := ⟨[], [], ["exe"], ["home"], none, ["home", ".config"], [["myplugins.zip"]]⟩

/-- `sys.path` contains `ghost`; the file `ghost.zip` exists but `ZipFile('ghost')`
raises `FileNotFoundError`. -/
def fsGhost : FS :=
  ⟨fun _ => false, fun p => p == ["ghost.zip"], fun _ => [],
   fun _ => .raised .fileNotFound⟩

def envGhost : Env := { envZip with sysPath := [["ghost"]] }

/-- A filesystem on which nothing exists. -/
def fsNone : FS := ⟨fun _ => false, fun _ => false, fun _ => [], fun _ => .raised .fileNotFound⟩

/-- One user config dir `u`, whose `u/plugins` folder does not exist. -/
def envC8 : Env := ⟨[["u"]], [], ["exe"], ["home"], none, ["home", ".config"], []⟩

def envW8 : Env := { envC8 with sysPath := [["sp"]] }

/-! ## Claim C1 -/

/-- Claim C1: first-registration-wins collision policy. Within one
`load_plugins` call, a name already present in the caller-supplied namespace
survives unchanged and never reappears in the returned registry, and for a
name not in the namespace the binding that remains is the earliest-registered
candidate over the whole scan order (main scan in order, then the compat
module). -/
theorem c1_first_registration_wins (name suffix : String) (mods : List ModuleInfo)
    (enumRaised : Option String) (compat : CompatExec) (ns c ns' : Registry)
    (d : List String)
    (h : load_plugins name suffix mods enumRaised compat ns = .ok (c, ns', d)) :
    (∀ k v, alookup k ns = some v → alookup k ns' = some v ∧ alookup k c = none) ∧
    (∀ k, alookup k ns = none →
      alookup k c = alookup k (allCandidates name suffix mods compat)) := by
  obtain ⟨hdisj, hns', hfirst⟩ :=
    load_plugins_ok_inv name suffix mods enumRaised compat ns c ns' d h
  refine ⟨?_, hfirst⟩
  intro k v hkv
  have hcnone : alookup k c = none := hdisj k (by rw [hkv]; rfl)
  refine ⟨?_, hcnone⟩
  have hdis : ∀ kv ∈ c, alookup kv.1 ns = none := disjoint_keys_of_lookup hdisj
  rw [hns', dictUpdate_disjoint ns c hdis, alookup_append, hkv]

/-- Witness for C1: two plugin modules both define `FooIE`, and the
caller-supplied namespace already holds a built-in `FooIE`; the pre-existing
entry survives and the returned registry stays empty. -/
theorem c1_first_registration_wins_witness :
    alookup "FooIE" [("FooIE", memBuiltinFoo)] = some memBuiltinFoo ∧
    alookup "FooIE" ([] : Registry) = none :=
  (c1_first_registration_wins "extractor" "IE" [modA, modB] none .missing
    [("FooIE", memBuiltinFoo)] [] [("FooIE", memBuiltinFoo)] [] rfl).1
    "FooIE" memBuiltinFoo rfl

/-! ## Claim C2 -/

/-- Claim C2 counterexample: `load_plugins` is not exception-free. Two
concrete escapes: an exception raised while executing the legacy compat
package propagates (only `FileNotFoundError` is suppressed around the compat
bridge), and an exception raised by the submodule enumeration itself — the
`for`-loop header lies outside the `try`, e.g. a corrupt archive surfacing
from the finder after the first module was yielded — also propagates to the
caller. -/
theorem c2_counterexample :
    load_plugins "extractor" "IE" [] none (.raising "boom") [] = .error "boom" ∧
    load_plugins "extractor" "IE" [modA] (some "BadZipFile") .missing [] =
      .error "BadZipFile" :=
  ⟨rfl, rfl⟩

/-- Claim C2 (amended): failure isolation holds for every module the main
scan executes — a module whose execution raises contributes exactly one
diagnostic and zero classes and the scan continues — and `load_plugins`
returns normally when the submodule enumeration runs to completion and the
compat package is absent or executes successfully. Exceptions are not
confined otherwise: an exception raised by the enumeration machinery itself
propagates (the `for`-loop header is outside the `try`), and any exception
from the compat package's execution other than the suppressed file-not-found
condition propagates as well. -/
theorem c2_amended_failure_isolation :
    (∀ (suffix : String) (ns : Registry) (m : ModuleInfo) (rest : List ModuleInfo)
       (classes : Registry) (diags : List String) (e : String),
      skipModuleName m.name = false → m.exec = .error e →
      scanModules suffix ns (m :: rest) classes diags =
        scanModules suffix ns rest classes (diags ++ [loadErrorMessage m.name])) ∧
    (∀ (name suffix : String) (mods : List ModuleInfo) (compat : CompatExec)
       (ns : Registry) (e : String),
      load_plugins name suffix mods (some e) compat ns = .error e) ∧
    (∀ (name suffix : String) (mods : List ModuleInfo) (ns : Registry),
      ∃ r, load_plugins name suffix mods none .missing ns = .ok r) ∧
    (∀ (name suffix : String) (mods : List ModuleInfo) (pm : PyModule) (ns : Registry),
      ∃ r, load_plugins name suffix mods none (.loaded pm) ns = .ok r) := by
  refine ⟨?_, ?_, ?_, ?_⟩
  · intro suffix ns m rest classes diags e hskip hexec
    simp [scanModules, hskip, hexec]
  · intro name suffix mods compat ns e
    rfl
  · intro name suffix mods ns
    exact ⟨_, rfl⟩
  · intro name suffix mods pm ns
    exact ⟨_, rfl⟩

/-- Witness for the amended C2: a raising module in the main scan adds its
diagnostic and the scan continues with the sibling module. -/
theorem c2_amended_failure_isolation_witness :
    scanModules "IE" [] [modBad, modB] [] [] =
      scanModules "IE" [] [modB] [] ([] ++ [loadErrorMessage modBad.name]) :=
  c2_amended_failure_isolation.1 "IE" [] modBad [modB] [] [] "boom" rfl rfl

/-! ## Claim C3 -/

/-- Claim C3 counterexample: a class defined in the sibling module
`yt_dlp_plugins.extractor.other` and imported into the executed module
`yt_dlp_plugins.extractor.foo` satisfies every condition of the claim —
including "defined in a module whose qualified name is a descendant of the
plugin category's own package path" — yet the code does not collect it,
because `check_predicate` compares `__module__` against the executed module's
own fully qualified name. -/
theorem c3_counterexample :
    spec_collect_condition "IE" "yt_dlp_plugins.extractor" pmOther memBarOther = true ∧
    alookup "BarIE" (moduleCandidates "IE" "yt_dlp_plugins.extractor.foo" pmOther) = none :=
  ⟨rfl, rfl⟩

/-- Claim C3 (amended): for every executed module and required suffix, a
top-level symbol is collected iff it is a class, its name ends with the
suffix, its name does not start with an underscore, its `__module__` starts
with the executed module's own fully qualified name (not merely the category
package's), and, when the module declares `__all__`, the name appears in it —
that is, collection is exactly `check_predicate`. -/
theorem c3_amended_selection (suffix moduleName : String) (pm : PyModule) (mem : Member)
    (hn : (pm.members.map Member.name).Nodup) (hm : mem ∈ pm.members) :
    (alookup mem.name (moduleCandidates suffix moduleName pm)).isSome = true ↔
      check_predicate suffix moduleName pm mem = true := by
  unfold moduleCandidates getmembers
  constructor
  · intro h
    rw [Option.isSome_iff_exists] at h
    obtain ⟨v, hv⟩ := h
    obtain ⟨hvmem, hvname, hvp⟩ := alookup_getmembers_eq_some hv
    have hveq : v = mem := nodup_name_inj hn hm hvmem hvname
    rw [← hveq]
    exact hvp
  · intro h
    rw [alookup_getmembers_of_mem hm h (fun m' hm' hname => nodup_name_inj hn hm hm' hname)]
    rfl

/-- Witness for the amended C3: `FooIE` in module `yt_dlp_plugins.extractor.a`
is collected, and the equivalence evaluates at that concrete instance. -/
theorem c3_amended_selection_witness :
    (alookup memFooA.name (moduleCandidates "IE" "yt_dlp_plugins.extractor.a" pmA)).isSome
        = true ↔
      check_predicate "IE" "yt_dlp_plugins.extractor.a" pmA memFooA = true :=
  c3_amended_selection "IE" "yt_dlp_plugins.extractor.a" pmA memFooA
    (by decide) (by decide)

/-! ## Claim C4 -/

/-- Claim C4: resolution contract of `PluginFinder.find_spec`. For a name
outside the watched package set it returns no opinion (`None`) without
touching anything; for a watched name whose resolved location set is empty it
returns `None`; otherwise it returns a package descriptor whose submodule
search path is exactly the resolved location set and whose loader's
`exec_module` is a no-op. -/
theorem c4_find_spec_contract (env : Env) (fs : FS) (f : PluginFinder) (fullname : String) :
    (fullname ∉ f.packages → find_spec env fs f fullname = .ok (f, none)) ∧
    (∀ cache', fullname ∈ f.packages →
      search_locations env fs f.zip_content_cache fullname = .ok (cache', []) →
      find_spec env fs f fullname = .ok ({ f with zip_content_cache := cache' }, none)) ∧
    (∀ cache' locs, fullname ∈ f.packages →
      search_locations env fs f.zip_content_cache fullname = .ok (cache', locs) →
      locs ≠ [] →
      find_spec env fs f fullname =
        .ok ({ f with zip_content_cache := cache' },
             some { name := fullname, loader := {}, is_package := true,
                    submodule_search_locations := locs }) ∧
      ∀ (α : Type) (m : α), PluginLoader.exec_module {} m = m) := by
  refine ⟨?_, ?_, ?_⟩
  · intro hni
    simp [find_spec, hni]
  · intro cache' hmem hsearch
    simp [find_spec, hmem, hsearch]
  · intro cache' locs hmem hsearch hne
    exact ⟨by simp [find_spec, hmem, hsearch, hne], fun α m => rfl⟩

/-- Witness for C4: `nope` is not a watched package name of the default
finder, so `find_spec` declines. -/
theorem c4_find_spec_contract_witness :
    find_spec envZip fsZipBad defaultFinder "nope" = .ok (defaultFinder, none) :=
  (c4_find_spec_contract envZip fsZipBad defaultFinder "nope").1 (by decide)

/-! ## Claim C5 -/

/-- Claim C5 counterexample: with a caller-supplied pre-existing namespace
holding `FooIE` and nothing discovered, `load_plugins` returns the empty
candidate registry while the merged namespace still holds `FooIE` — the
returned value and the merged namespace are different mappings (the source
returns `classes`, not `namespace`). -/
theorem c5_counterexample :
    load_plugins "extractor" "IE" [] none .missing [("FooIE", memBuiltinFoo)] =
      .ok ([], [("FooIE", memBuiltinFoo)], []) ∧
    ([] : Registry) ≠ [("FooIE", memBuiltinFoo)] :=
  ⟨rfl, by decide⟩

/-- Claim C5 (amended): the caller-supplied namespace is updated in place with
all surviving candidates — it ends as the pre-existing entries followed by
the surviving candidates, whose names never collide with pre-existing ones —
but the value returned to the caller is the mapping of the surviving
candidates only, not the merged namespace. -/
theorem c5_amended_return_value (name suffix : String) (mods : List ModuleInfo)
    (enumRaised : Option String) (compat : CompatExec) (ns c ns' : Registry)
    (d : List String)
    (h : load_plugins name suffix mods enumRaised compat ns = .ok (c, ns', d)) :
    ns' = ns ++ c ∧ (∀ k, (alookup k ns).isSome = true → alookup k c = none) := by
  obtain ⟨hdisj, hns', _⟩ :=
    load_plugins_ok_inv name suffix mods enumRaised compat ns c ns' d h
  have hdis : ∀ kv ∈ c, alookup kv.1 ns = none := disjoint_keys_of_lookup hdisj
  exact ⟨by rw [hns', dictUpdate_disjoint ns c hdis], hdisj⟩

/-- Witness for the amended C5: one discovered module adds `FooIE` next to
the pre-existing `BazIE`; the updated namespace is the pre-existing entries
followed by the survivors, and the survivor set avoids pre-existing keys. -/
theorem c5_amended_return_value_witness :
    ([("BazIE", memBaz), ("FooIE", memFooA)] : Registry) =
      [("BazIE", memBaz)] ++ [("FooIE", memFooA)] ∧
    alookup "BazIE" [("FooIE", memFooA)] = none :=
  have h := c5_amended_return_value "extractor" "IE" [modA] none .missing
    [("BazIE", memBaz)] [("FooIE", memFooA)] [("BazIE", memBaz), ("FooIE", memFooA)] [] rfl
  ⟨h.1, h.2 "BazIE" rfl⟩

/-! ## Claim C6 -/

theorem initPlugins_initialized (s : SysState) : (initPlugins s).initialized = true := by
  unfold initPlugins
  by_cases h : s.initialized <;> simp [h]

theorem initPlugins_fixed {t : SysState} (h : t.initialized = true) : initPlugins t = t := by
  unfold initPlugins
  simp [h]

theorem initPlugins_iter_fixed (n : ℕ) {t : SysState} (h : t.initialized = true) :
    initPlugins^[n] t = t := by
  induction n with
  | zero => rfl
  | succ k ih => rw [Function.iterate_succ_apply, initPlugins_fixed h, ih]

/-- Claim C6: initialization is idempotent. However many times the
initialization entry point runs, the state equals that after one run; when
the flag was clear, one plugin finder is installed (the count of plugin
entries on `sys.meta_path` rises by exactly one) and the flag ends set. -/
theorem c6_initialization_idempotent (s : SysState) (n : ℕ) :
    initPlugins^[n + 1] s = initPlugins s ∧
    (s.initialized = false →
      (initPlugins^[n + 1] s).meta_path.countP isPluginEntry =
        s.meta_path.countP isPluginEntry + 1 ∧
      (initPlugins^[n + 1] s).initialized = true) := by
  have hiter : initPlugins^[n + 1] s = initPlugins s := by
    rw [Function.iterate_succ_apply]
    exact initPlugins_iter_fixed n (initPlugins_initialized s)
  refine ⟨hiter, fun hinit => ?_⟩
  rw [hiter]
  constructor
  · unfold initPlugins
    simp [hinit, List.countP_cons, isPluginEntry]
  · exact initPlugins_initialized s

/-- Witness for C6: starting uninitialized with one host finder, two calls
equal one call, and exactly one plugin finder got installed. -/
theorem c6_initialization_idempotent_witness :
    initPlugins^[2] ⟨[.host "builtin"], false⟩ = initPlugins ⟨[.host "builtin"], false⟩ ∧
    (initPlugins^[2] ⟨[.host "builtin"], false⟩).meta_path.countP isPluginEntry =
      (SysState.mk [.host "builtin"] false).meta_path.countP isPluginEntry + 1 :=
  ⟨(c6_initialization_idempotent ⟨[.host "builtin"], false⟩ 1).1,
   ((c6_initialization_idempotent ⟨[.host "builtin"], false⟩ 1).2 rfl).1⟩

/-! ## Claim C7 -/

/-- Claim C7 counterexample: the archive `myplugins.zip` on `sys.path` has
entry `extractor/bar.py` — its entry list does contain the category directory
`extractor/...` — yet the watched namespace `yt_dlp_plugins` is not backed by
it: `find_spec` resolves no location and declines, so `BarIE` is never
discovered. The containment test runs against the full dotted package path,
not the bare category. -/
theorem c7_counterexample :
    zipHasDirEntries ["extractor"] [["extractor", "bar.py"]] = true ∧
    find_spec envZip fsZipBad defaultFinder "yt_dlp_plugins" =
      .ok ({ defaultFinder with
              zip_content_cache := [(["myplugins.zip"], [["extractor", "bar.py"]])] },
           none) ∧
    find_spec envZip fsZipBad defaultFinder "yt_dlp_plugins.extractor" =
      .ok ({ defaultFinder with
              zip_content_cache := [(["myplugins.zip"], [["extractor", "bar.py"]])] },
           none) :=
  ⟨rfl, rfl, rfl⟩

/-- Claim C7 (amended): a `.zip`/`.egg`/`.whl`-suffixed candidate backs a
watched package name exactly when the package's full dotted path, read as a
directory path, is a proper ancestor of some archive entry; so the archive
must contain `yt_dlp_plugins/extractor/bar.py` (not bare `extractor/bar.py`),
in which case the namespace resolves to the archive-internal location and
`BarIE` is discovered and registered exactly once. -/
theorem c7_amended_archive_layout :
    (∀ (fs : FS) (cache : ZipCache) (archive parts : FPath) (es : List FPath),
      alookup archive cache = some es →
      zip_has_dir fs cache archive parts = (cache, .ok (zipHasDirEntries parts es), 0) ∧
      (zipHasDirEntries parts es = true ↔ ∃ e ∈ es, parts <+: e ∧ parts ≠ e)) ∧
    find_spec envZip fsZipGood defaultFinder "yt_dlp_plugins" =
      .ok ({ defaultFinder with
              zip_content_cache :=
                [(["myplugins.zip"], [["yt_dlp_plugins", "extractor", "bar.py"]])] },
           some { name := "yt_dlp_plugins", loader := {}, is_package := true,
                  submodule_search_locations := [["myplugins.zip", "yt_dlp_plugins"]] }) ∧
    load_plugins "extractor" "IE" [modBar] none .missing [] =
      .ok ([("BarIE", memBar)], [("BarIE", memBar)], []) := by
  refine ⟨?_, rfl, rfl⟩
  intro fs cache archive parts es hfound
  refine ⟨by simp [zip_has_dir, hfound], ?_⟩
  simp [zipHasDirEntries, inParents, List.any_eq_true, Bool.and_eq_true,
    List.isPrefixOf_iff_prefix, bne_iff_ne]

/-- Witness for the amended C7: a cached archive listing containing
`yt_dlp_plugins/x.py` answers the containment query for `yt_dlp_plugins`
from the cache. -/
theorem c7_amended_archive_layout_witness :
    zip_has_dir fsGhost [(["a.zip"], [["yt_dlp_plugins", "x.py"]])] ["a.zip"]
        ["yt_dlp_plugins"] =
      ([(["a.zip"], [["yt_dlp_plugins", "x.py"]])],
       .ok (zipHasDirEntries ["yt_dlp_plugins"] [["yt_dlp_plugins", "x.py"]]), 0) :=
  (c7_amended_archive_layout.1 fsGhost [(["a.zip"], [["yt_dlp_plugins", "x.py"]])]
    ["a.zip"] ["yt_dlp_plugins"] [["yt_dlp_plugins", "x.py"]] rfl).1

/-! ## Claim C8 -/

/-- Claim C8 counterexample: the configured user config directory `u`, joined
with the `plugins` subfolder, does not appear in the enumerated candidate
sequence when `u/plugins` is not an existing directory — enumeration does
filter by existence (and even when the folder exists, it contributes its
children, never the joined candidate itself). -/
theorem c8_counterexample :
    ["u", "plugins"] ∉ candidate_locations envC8 fsNone := by decide

/-- Claim C8 (amended): only module-search-path entries are enumerated
unconditionally and unmodified; the config-directory and tool-plugins
sources are existence-filtered — every candidate they contribute is a
directory entry of a source's plugins subfolder that exists as a directory. -/
theorem c8_amended_enumeration (env : Env) (fs : FS) :
    (∀ p ∈ env.sysPath, p ∈ candidate_locations env fs) ∧
    (∀ (rootPaths : List FPath) (folder : String) (x : FPath),
      x ∈ _get_package_paths fs rootPaths folder →
      ∃ d ∈ rootPaths, fs.isDir (d ++ [folder]) = true ∧ x ∈ fs.iterdir (d ++ [folder])) := by
  constructor
  · intro p hp
    unfold candidate_locations
    exact List.mem_append_right _ hp
  · intro rootPaths folder x hx
    unfold _get_package_paths at hx
    rw [List.mem_flatMap] at hx
    obtain ⟨d, hd, hxd⟩ := hx
    by_cases hdir : fs.isDir (d ++ [folder]) = true
    · refine ⟨d, hd, hdir, ?_⟩
      simpa [hdir] using hxd
    · exfalso
      simp [hdir] at hxd

/-- Witness for the amended C8: a `sys.path` entry appears in the enumeration
even on a filesystem where nothing exists. -/
theorem c8_amended_enumeration_witness :
    ["sp"] ∈ candidate_locations envW8 fsNone :=
  (c8_amended_enumeration envW8 fsNone).1 ["sp"] (by decide)

/-! ## Claim C9 -/

/-- Claim C9: archive-index caching. A first containment query on an uncached
archive performs exactly one underlying read and appends the full entry list
to the cache keyed by the archive path; every subsequent query on that path
answers from the cached list with zero reads and an unchanged cache;
`invalidate_caches` clears the cache (and drops watched packages from the
module cache), after which a query performs a fresh read. -/
theorem c9_archive_caching (fs : FS) (cache : ZipCache) (archive p q : FPath)
    (es : List FPath) (pkgs sysMods : List String)
    (hmiss : alookup archive cache = none)
    (hread : fs.zipNamelist archive = .entries es) :
    zip_has_dir fs cache archive p =
      (cache ++ [(archive, es)], .ok (zipHasDirEntries p es), 1) ∧
    zip_has_dir fs (cache ++ [(archive, es)]) archive q =
      (cache ++ [(archive, es)], .ok (zipHasDirEntries q es), 0) ∧
    PluginFinder.invalidate_caches ⟨pkgs, cache ++ [(archive, es)]⟩ sysMods =
      (⟨pkgs, []⟩, sysMods.filter (fun m => !(pkgs.contains m))) ∧
    zip_has_dir fs [] archive p = ([(archive, es)], .ok (zipHasDirEntries p es), 1) := by
  have hfound : alookup archive (cache ++ [(archive, es)]) = some es := by
    rw [alookup_append, hmiss]
    simp [alookup]
  refine ⟨?_, ?_, rfl, ?_⟩
  · simp [zip_has_dir, hmiss, hread]
  · simp [zip_has_dir, hfound]
  · simp [zip_has_dir, alookup, hread]

/-- Witness for C9: the first query against `myplugins.zip` reads and caches
its listing. -/
theorem c9_archive_caching_witness :
    zip_has_dir fsZipGood [] ["myplugins.zip"] ["yt_dlp_plugins"] =
      ([(["myplugins.zip"], [["yt_dlp_plugins", "extractor", "bar.py"]])],
       .ok (zipHasDirEntries ["yt_dlp_plugins"]
              [["yt_dlp_plugins", "extractor", "bar.py"]]), 1) :=
  (c9_archive_caching fsZipGood [] ["myplugins.zip"] ["yt_dlp_plugins"] ["yt_dlp_plugins"]
    [["yt_dlp_plugins", "extractor", "bar.py"]] [] [] rfl rfl).2.2.2

/-! ## Claim C10 -/

/-- Claim C10: a raising archive read leaves the zip-content cache unchanged —
no entry is recorded for that archive path, so a later query re-attempts the
underlying read (it performs a read again instead of answering from a cache) —
and the enclosing resolution suppresses the file-not-found error and treats
the candidate as absent, as in the `ghost`/`ghost.zip` scenario where
`search_locations` returns an empty location set and an unchanged cache. -/
theorem c10_failed_read_leaves_cache (fs : FS) (cache : ZipCache) (archive p : FPath)
    (e : PyError)
    (hmiss : alookup archive cache = none)
    (hraise : fs.zipNamelist archive = .raised e) :
    zip_has_dir fs cache archive p = (cache, .err e, 1) ∧
    (zip_has_dir fs (zip_has_dir fs cache archive p).1 archive p).2.2 = 1 ∧
    search_locations envGhost fsGhost [] "yt_dlp_plugins" = .ok ([], []) := by
  have h1 : zip_has_dir fs cache archive p = (cache, .err e, 1) := by
    simp [zip_has_dir, hmiss, hraise]
  refine ⟨h1, ?_, rfl⟩
  rw [h1]
  simp [zip_has_dir, hmiss, hraise]

/-- Witness for C10: `ZipFile('ghost')` raises `FileNotFoundError`; the cache
stays empty and the read was attempted once. -/
theorem c10_failed_read_leaves_cache_witness :
    zip_has_dir fsGhost [] ["ghost"] ["yt_dlp_plugins"] =
      ([], .err .fileNotFound, 1) :=
  (c10_failed_read_leaves_cache fsGhost [] ["ghost"] ["yt_dlp_plugins"]
    .fileNotFound rfl rfl).1

end YtDlpPlugins
